import Mathlib

/-!
Verification of the `ponte` bridge-chart core (`src/ponte/bridge.py`).

The embedding models the numeric layout algorithm of the `Bridge` class:
values are rationals, a missing/NaN entry is `Option.none`, and the
matplotlib rendering calls (which only draw the computed numbers) are
represented by the list of (layer, bottom-vector) pairs that `_plot`
would hand to `ax.bar`.
-/

namespace Ponte

/-- A layer value: `none` models the NaN sentinel, `some q` a real number. -/
abbrev Value := Option ℚ

/-- `np.nan_to_num` on a single entry: NaN becomes 0. -/
def nanToNum (v : Value) : ℚ := v.getD 0

/-- `np.nan_to_num` on a vector. -/
def nanClean (vs : List Value) : List ℚ := vs.map nanToNum

/-- Opaque matplotlib bar styling (`bar_args`), passed through untouched. -/
abbrev BarArgs := List (String × String)

/-- The `SimpleNamespace` stored per layer in `Bridge.add_layer`:
`values` is `np.array(values).astype(float)` (NaN preserved), plus `bar_args`. -/
structure Layer where
  values : List Value
  bar_args : BarArgs
  deriving DecidableEq, Repr, Inhabited

/-- The mutable state of a `Bridge` object (the matplotlib `fig`/`ax`
members are rendering collaborators, out of the modelled core). -/
structure Bridge where
  layers : List Layer
  segment_labels : List String
  segment_count : ℕ
  total_segments : List Bool
  deriving DecidableEq, Repr

/-- Python truthiness of the `total_segments` argument:
`None` and the empty list are falsy. -/
def listTruthy (m : Option (List Bool)) : Bool :=
  match m with
  | none => false
  | some xs => !xs.isEmpty

/-- `Bridge.__init__`: validates `total_segments` (note the Python
`if total_segments and len(...) != len(...)` guard, which skips the check
for a falsy, i.e. empty or absent, mask) and defaults the mask via
`total_segments or [False] * segment_count`. -/
def Bridge.init (segment_labels : List String) (total_segments : Option (List Bool)) :
    Except String Bridge :=
  if listTruthy total_segments = true ∧
      segment_labels.length ≠ (total_segments.getD []).length then
    Except.error "total_segments must be the same size as the series_labels."
  else
    Except.ok
      ⟨[], segment_labels, segment_labels.length,
        if listTruthy total_segments = true then total_segments.getD []
        else List.replicate segment_labels.length false⟩

/-- `np.insert(segment_values, 0, 0)[:-1]`: right-shift with a 0 pushed in. -/
def shiftRight (vs : List ℚ) : List ℚ := (0 :: vs).dropLast

/-- Python `zip` over three lists (truncates to the shortest). -/
def zip3 : List Bool → List ℚ → List ℚ → List (Bool × ℚ × ℚ)
  | t :: ts, b :: bs, s :: ss => (t, b, s) :: zip3 ts bs ss
  | _, _, _ => []

/-- The `for total_segment, b, st in zip(...)` loop of `Bridge._calc_bottom`,
carrying the running accumulator `cumulative_b`. -/
def calcLoop (cum : ℚ) : List (Bool × ℚ × ℚ) → List ℚ
  | [] => []
  | (total_segment, b, st) :: rest =>
    if total_segment then st :: calcLoop st rest
    else (cum + b) :: calcLoop (cum + b) rest

/-- `Bridge._calc_bottom(segment_values, segment_tops)`: NaN-clean the
values, right-shift them, add to the tops, then cumulatively sum with a
reset to `segment_tops[i]` at every total segment. -/
def calc_bottom (total_segments : List Bool) (segment_values : List Value)
    (segment_tops : List ℚ) : List ℚ :=
  let cleaned := nanClean segment_values
  let shifted := shiftRight cleaned
  let bottom_step1 := List.zipWith (fun x y => x + y) segment_tops shifted
  calcLoop 0 (zip3 total_segments bottom_step1 segment_tops)

/-- The `segment_tops` update after a layer is drawn in `Bridge._plot`:
`[x + y for x, y in zip(segment_tops, np.nan_to_num(values))]`. -/
def updateTops (segment_tops : List ℚ) (values : List Value) : List ℚ :=
  List.zipWith (fun x y => x + y) segment_tops (nanClean values)

/-- The layer loop of `Bridge._plot`: for every layer, in stored order,
the pair (layer, computed bottom) handed to `ax.bar`, threading
`segment_tops` from one layer to the next. -/
def plotLoop (total_segments : List Bool) (segment_tops : List ℚ) :
    List Layer → List (Layer × List ℚ)
  | [] => []
  | layer :: rest =>
    (layer, calc_bottom total_segments layer.values segment_tops) ::
      plotLoop total_segments (updateTops segment_tops layer.values) rest

/-- `Bridge._plot` as seen by the rendering collaborator: the sequence of
`ax.bar` calls (layer with its raw values and style, and its bottoms),
starting from `segment_tops = [0] * segment_count`. -/
def Bridge.plotBars (b : Bridge) : List (Layer × List ℚ) :=
  plotLoop b.total_segments (List.replicate b.segment_count 0) b.layers

/-- Just the computed bottom vectors, one per layer, in stacking order. -/
def Bridge.plotBottoms (b : Bridge) : List (List ℚ) :=
  b.plotBars.map Prod.snd

/-- `Bridge.add_layer(values, add_to_bottom, bar_args)`: validates the
length (raising before any mutation), then inserts the layer at position 0
or appends it. The result pairs the raised error (if any) with the state
after the call; on error the state is the unchanged receiver. -/
def Bridge.add_layer (b : Bridge) (values : List Value) (add_to_bottom : Bool)
    (bar_args : BarArgs) : Option String × Bridge :=
  if b.segment_count ≠ values.length then
    (some "values must be the same size as the series_labels used to initialize the bridge.",
      b)
  else
    (none,
      ⟨(if add_to_bottom then Layer.mk values bar_args :: b.layers
        else b.layers ++ [Layer.mk values bar_args]),
        b.segment_labels, b.segment_count, b.total_segments⟩)

/-- The example chart state right after construction with labels
`["A","B","C"]` and mask `[false,false,true]`. -/
def exB0 : Bridge := ⟨[], ["A", "B", "C"], 3, [false, false, true]⟩

/-- The example state after `add_layer([5,5,5])`. -/
def exB1 : Bridge := (exB0.add_layer [some 5, some 5, some 5] true []).2

/-- The example state after the further `add_layer([1,1,1], add_to_bottom=False)`. -/
def exB2 : Bridge := (exB1.add_layer [some 1, some 1, some 1] false []).2

/-- A one-layer chart (labels `["A"]`, default mask, one layer `[5]`),
as produced by construction followed by `add_layer([5])`. -/
def exC7 : Bridge := ⟨[Layer.mk [some 5] []], ["A"], 1, [false]⟩

/-- The `segment_tops` accumulation step of `_plot`, as a fold step over
stored layers. -/
def stepTops (tops : List ℚ) (l : Layer) : List ℚ := updateTops tops l.values

/-! ### Helper lemmas about the embedded operations -/

theorem getD_lt {α : Type} (l : List α) (d : α) (i : ℕ) (h : i < l.length) :
    l.getD i d = l.get ⟨i, h⟩ := by
  simp [List.getD_eq_getElem?_getD, List.getElem?_eq_getElem h]

theorem length_calcLoop (cum : ℚ) (ts : List (Bool × ℚ × ℚ)) :
    (calcLoop cum ts).length = ts.length := by
  induction ts generalizing cum with
  | nil => rfl
  | cons t rest ih =>
    obtain ⟨tot, b, st⟩ := t
    by_cases h : tot <;> simp [calcLoop, h, ih]

theorem length_zip3 (ts : List Bool) (bs ss : List ℚ) :
    (zip3 ts bs ss).length = min ts.length (min bs.length ss.length) := by
  induction ts generalizing bs ss with
  | nil => simp [zip3]
  | cons t ts ih =>
    cases bs with
    | nil => simp [zip3]
    | cons b bs =>
      cases ss with
      | nil => simp [zip3]
      | cons s ss =>
        simp only [zip3, List.length_cons, ih]
        omega

theorem length_shiftRight (vs : List ℚ) : (shiftRight vs).length = vs.length := by
  simp [shiftRight]

theorem length_nanClean (vs : List Value) : (nanClean vs).length = vs.length := by
  simp [nanClean]

theorem length_calc_bottom (mask : List Bool) (vals : List Value) (tops : List ℚ) :
    (calc_bottom mask vals tops).length =
      min mask.length (min (min tops.length vals.length) tops.length) := by
  simp [calc_bottom, length_calcLoop, length_zip3, length_shiftRight, length_nanClean]

theorem length_updateTops (tops : List ℚ) (vals : List Value) :
    (updateTops tops vals).length = min tops.length vals.length := by
  simp [updateTops, length_nanClean]

theorem zipWith_add_getD (as bs : List ℚ) (i : ℕ) (ha : i < as.length)
    (hb : i < bs.length) :
    (List.zipWith (fun x y => x + y) as bs).getD i 0 = as.getD i 0 + bs.getD i 0 := by
  have hl : i < (List.zipWith (fun x y : ℚ => x + y) as bs).length := by
    rw [List.length_zipWith]; omega
  rw [getD_lt _ _ _ hl, getD_lt _ _ _ ha, getD_lt _ _ _ hb]
  simp [List.getElem_zipWith]

theorem nanClean_getD (vs : List Value) (i : ℕ) (h : i < vs.length) :
    (nanClean vs).getD i 0 = nanToNum (vs.getD i none) := by
  have h' : i < (nanClean vs).length := by rw [length_nanClean]; exact h
  rw [getD_lt _ _ _ h', getD_lt _ _ _ h]
  simp [nanClean]

theorem shiftRight_getD_succ (vs : List ℚ) (k : ℕ) (h : k + 1 < vs.length) :
    (shiftRight vs).getD (k + 1) 0 = vs.getD k 0 := by
  have h1 : k + 1 < (shiftRight vs).length := by rw [length_shiftRight]; exact h
  have h2 : k < vs.length := by omega
  rw [getD_lt _ _ _ h1, getD_lt _ _ _ h2]
  simp [shiftRight, List.getElem_dropLast]

theorem zip3_getD (ts : List Bool) (bs ss : List ℚ) (i : ℕ) (h1 : i < ts.length)
    (h2 : i < bs.length) (h3 : i < ss.length) :
    (zip3 ts bs ss).getD i (false, 0, 0) =
      (ts.getD i false, bs.getD i 0, ss.getD i 0) := by
  induction ts generalizing bs ss i with
  | nil => simp at h1
  | cons t ts ih =>
    cases bs with
    | nil => simp at h2
    | cons b bs =>
      cases ss with
      | nil => simp at h3
      | cons s ss =>
        cases i with
        | zero => simp [zip3]
        | succ i =>
          simp only [zip3, List.getD_cons_succ]
          exact ih bs ss i (by simpa using h1) (by simpa using h2) (by simpa using h3)

theorem calcLoop_getD_total (ts : List (Bool × ℚ × ℚ)) (cum : ℚ) (i : ℕ)
    (h : i < ts.length) (htot : (ts.getD i (false, 0, 0)).1 = true) :
    (calcLoop cum ts).getD i 0 = (ts.getD i (false, 0, 0)).2.2 := by
  induction ts generalizing cum i with
  | nil => simp at h
  | cons t rest ih =>
    obtain ⟨tot, b, st⟩ := t
    cases i with
    | zero =>
      simp only [List.getD_cons_zero] at htot ⊢
      simp [calcLoop, htot]
    | succ i =>
      have h' : i < rest.length := by simpa using h
      simp only [List.getD_cons_succ] at htot ⊢
      cases tot with
      | false => simpa [calcLoop] using ih (cum + b) i h' htot
      | true => simpa [calcLoop] using ih st i h' htot

theorem calc_bottom_getD_total (mask : List Bool) (vals : List Value) (tops : List ℚ)
    (i : ℕ) (h1 : i < mask.length) (h2 : i < vals.length) (h3 : i < tops.length)
    (htot : mask.getD i false = true) :
    (calc_bottom mask vals tops).getD i 0 = tops.getD i 0 := by
  unfold calc_bottom
  have hs : i < (List.zipWith (fun x y : ℚ => x + y) tops
      (shiftRight (nanClean vals))).length := by
    rw [List.length_zipWith, length_shiftRight, length_nanClean]; omega
  have hz : i < (zip3 mask (List.zipWith (fun x y : ℚ => x + y) tops
      (shiftRight (nanClean vals))) tops).length := by
    rw [length_zip3]; omega
  rw [calcLoop_getD_total _ 0 i hz (by rw [zip3_getD _ _ _ _ h1 hs h3, htot]),
    zip3_getD _ _ _ _ h1 hs h3]

theorem calc_bottom_getD_zero (mask : List Bool) (vals : List Value) (tops : List ℚ)
    (h1 : 0 < mask.length) (h2 : 0 < vals.length) (h3 : 0 < tops.length) :
    (calc_bottom mask vals tops).getD 0 0 = tops.getD 0 0 := by
  cases mask with
  | nil => simp at h1
  | cons m ms =>
    cases vals with
    | nil => simp at h2
    | cons v vs =>
      cases tops with
      | nil => simp at h3
      | cons t ts =>
        cases m <;>
          simp [calc_bottom, nanClean, shiftRight, zip3, calcLoop]

theorem plotBottoms_getD (mask : List Bool) (tops : List ℚ) (ls : List Layer)
    (j : ℕ) (hj : j < ls.length) :
    ((plotLoop mask tops ls).map Prod.snd).getD j [] =
      calc_bottom mask (ls.getD j (Layer.mk [] [])).values
        (List.foldl stepTops tops (ls.take j)) := by
  induction ls generalizing tops j with
  | nil => simp at hj
  | cons l rest ih =>
    cases j with
    | zero => simp [plotLoop]
    | succ j =>
      have hj' : j < rest.length := by simpa using hj
      simp only [plotLoop, List.map_cons, List.getD_cons_succ, List.take_succ_cons,
        List.foldl_cons]
      exact ih (updateTops tops l.values) j hj'

theorem length_foldl_stepTops (ls : List Layer) (tops : List ℚ)
    (h : ∀ l ∈ ls, l.values.length = tops.length) :
    (List.foldl stepTops tops ls).length = tops.length := by
  induction ls generalizing tops with
  | nil => rfl
  | cons l rest ih =>
    have hl : (updateTops tops l.values).length = tops.length := by
      rw [length_updateTops, h l (by simp)]; omega
    have hrest : ∀ l2 ∈ rest, l2.values.length = (updateTops tops l.values).length := by
      intro l2 hm
      rw [hl]
      exact h l2 (List.mem_cons_of_mem _ hm)
    simp only [List.foldl_cons, stepTops]
    rw [ih (updateTops tops l.values) hrest, hl]

theorem foldl_stepTops_getD (ls : List Layer) (tops : List ℚ) (i : ℕ)
    (hi : i < tops.length) (h : ∀ l ∈ ls, l.values.length = tops.length) :
    (List.foldl stepTops tops ls).getD i 0 =
      tops.getD i 0 + (ls.map (fun l => nanToNum (l.values.getD i none))).sum := by
  induction ls generalizing tops with
  | nil => simp
  | cons l rest ih =>
    have hlv : l.values.length = tops.length := h l (by simp)
    have hl : (updateTops tops l.values).length = tops.length := by
      rw [length_updateTops, hlv]; omega
    have hrest : ∀ l2 ∈ rest, l2.values.length = (updateTops tops l.values).length := by
      intro l2 hm
      rw [hl]
      exact h l2 (List.mem_cons_of_mem _ hm)
    have hup : (updateTops tops l.values).getD i 0 =
        tops.getD i 0 + nanToNum (l.values.getD i none) := by
      unfold updateTops
      rw [zipWith_add_getD _ _ _ hi (by rw [length_nanClean, hlv]; exact hi),
        nanClean_getD _ _ (by rw [hlv]; exact hi)]
    simp only [List.foldl_cons, List.map_cons, List.sum_cons, stepTops]
    rw [ih (updateTops tops l.values) (by rw [hl]; exact hi) hrest, hup]
    ring

theorem calcLoop_allfalse_getD (ts : List (Bool × ℚ × ℚ)) (cum : ℚ) (i : ℕ)
    (hall : ∀ t ∈ ts, t.1 = false) (hi : i < ts.length) :
    (calcLoop cum ts).getD i 0 = cum + ((ts.map (fun t => t.2.1)).take (i + 1)).sum := by
  induction ts generalizing cum i with
  | nil => simp at hi
  | cons t rest ih =>
    obtain ⟨tot, b, st⟩ := t
    have htf : tot = false := hall (tot, b, st) (by simp)
    subst htf
    cases i with
    | zero => simp [calcLoop]
    | succ i =>
      have hi' : i < rest.length := by simpa using hi
      have hrest : ∀ t ∈ rest, t.1 = false := fun t ht =>
        hall t (List.mem_cons_of_mem _ ht)
      simp only [calcLoop, Bool.false_eq_true, if_false, List.getD_cons_succ,
        List.map_cons, List.take_succ_cons, List.sum_cons]
      rw [ih (cum + b) i hrest hi']
      ring

theorem zip3_replicate_false (n : ℕ) (bs ss : List ℚ) :
    ∀ t ∈ zip3 (List.replicate n false) bs ss, t.1 = false := by
  induction n generalizing bs ss with
  | zero => simp [zip3, List.replicate]
  | succ n ih =>
    cases bs with
    | nil => simp [zip3, List.replicate]
    | cons b bs =>
      cases ss with
      | nil => simp [zip3, List.replicate]
      | cons s ss =>
        intro t ht
        simp only [List.replicate_succ, zip3, List.mem_cons] at ht
        rcases ht with h | h
        · rw [h]
        · exact ih bs ss t h

theorem zip3_map_proj (ts : List Bool) (bs ss : List ℚ)
    (h1 : ts.length = bs.length) (h2 : bs.length = ss.length) :
    (zip3 ts bs ss).map (fun t => t.2.1) = bs := by
  induction ts generalizing bs ss with
  | nil =>
    cases bs with
    | nil => simp [zip3]
    | cons b bs => simp at h1
  | cons t ts ih =>
    cases bs with
    | nil => simp at h1
    | cons b bs =>
      cases ss with
      | nil => simp at h2
      | cons s ss =>
        simp only [zip3, List.map_cons]
        rw [ih bs ss (by simpa using h1) (by simpa using h2)]

theorem calc_bottom_allfalse_getD (n : ℕ) (vals : List Value) (tops : List ℚ)
    (i : ℕ) (hv : vals.length = n) (ht : tops.length = n) (hi : i < n) :
    (calc_bottom (List.replicate n false) vals tops).getD i 0 =
      ((List.zipWith (fun x y => x + y) tops
        (shiftRight (nanClean vals))).take (i + 1)).sum := by
  unfold calc_bottom
  have hstep : (List.zipWith (fun x y : ℚ => x + y) tops
      (shiftRight (nanClean vals))).length = n := by
    rw [List.length_zipWith, length_shiftRight, length_nanClean]
    omega
  have hz : i < (zip3 (List.replicate n false)
      (List.zipWith (fun x y : ℚ => x + y) tops (shiftRight (nanClean vals)))
      tops).length := by
    rw [length_zip3, List.length_replicate]
    omega
  rw [calcLoop_allfalse_getD _ 0 i (zip3_replicate_false n _ tops) hz,
    zip3_map_proj _ _ _ (by rw [List.length_replicate, hstep]) (by rw [hstep, ht]),
    zero_add]

theorem take_zipWith_add_sum (as bs : List ℚ) (k : ℕ) (h : as.length = bs.length) :
    ((List.zipWith (fun x y => x + y) as bs).take k).sum =
      (as.take k).sum + (bs.take k).sum := by
  induction as generalizing bs k with
  | nil =>
    cases bs with
    | nil => simp
    | cons b bs => simp at h
  | cons a as ih =>
    cases bs with
    | nil => simp at h
    | cons b bs =>
      cases k with
      | zero => simp
      | succ k =>
        simp only [List.zipWith_cons_cons, List.take_succ_cons, List.sum_cons]
        rw [ih bs k (by simpa using h)]
        ring

theorem shiftRight_take_sum (v : List ℚ) (i : ℕ) (hi : i < v.length) :
    ((shiftRight v).take (i + 1)).sum = (v.take i).sum := by
  unfold shiftRight
  rw [List.dropLast_eq_take, List.take_take]
  have hmin : min (i + 1) ((0 :: v).length - 1) = i + 1 := by
    simp only [List.length_cons]
    omega
  rw [hmin, List.take_succ_cons]
  simp

theorem zipWith_add_replicate_zero (l : List ℚ) (n : ℕ) (h : l.length = n) :
    List.zipWith (fun x y => x + y) (List.replicate n 0) l = l := by
  induction l generalizing n with
  | nil =>
    subst h
    simp
  | cons a l ih =>
    cases n with
    | zero => simp at h
    | succ n => simp [List.replicate_succ, ih n (by simpa using h)]

theorem nanClean_map_some (v : List ℚ) : nanClean (v.map some) = v := by
  induction v with
  | nil => rfl
  | cons a l ih =>
    simp only [List.map_cons, nanClean, nanToNum, Option.getD_some]
    simp only [nanClean] at ih
    rw [ih]

/-- C1: end-to-end example. Constructing with labels `["A","B","C"]` and
mask `[false,false,true]`, then `add_layer([5,5,5])` followed by
`add_layer([1,1,1], add_to_bottom=false)`, yields bottoms `[0,5,0]` for
the bottom layer and `[5,11,5]` for the top layer, with cumulative tops
`[5,5,5]` between the two layers. -/
theorem C1_end_to_end :
    Bridge.init ["A", "B", "C"] (some [false, false, true]) = Except.ok exB0 ∧
    (exB0.add_layer [some 5, some 5, some 5] true []).1 = none ∧
    (exB1.add_layer [some 1, some 1, some 1] false []).1 = none ∧
    exB2.plotBottoms = [[0, 5, 0], [5, 11, 5]] ∧
    updateTops (List.replicate 3 0) [some 5, some 5, some 5] = [5, 5, 5] := by
  refine ⟨?_, ?_, ?_, ?_, ?_⟩ <;>
    norm_num [Bridge.init, listTruthy, exB0, exB1, exB2, Bridge.add_layer,
      Bridge.plotBottoms, Bridge.plotBars, plotLoop, calc_bottom, updateTops,
      nanClean, nanToNum, shiftRight, zip3, calcLoop, List.replicate]

/-- C3 counterexample: a provided empty mask with non-empty labels has a
length mismatch yet construction succeeds (Python truthiness skips the
check for an empty list), contradicting the claim that every provided
mask of mismatched length fails with `ConfigurationError`. -/
theorem C3_counterexample :
    List.length ([] : List Bool) ≠ List.length ["A"] ∧
    Bridge.init ["A"] (some []) = Except.ok ⟨[], ["A"], 1, [false]⟩ := by
  constructor
  · decide
  · norm_num [Bridge.init, listTruthy, List.replicate]

/-- C3 (amended): a provided *non-empty* mask of mismatched length fails
with the configuration error; a provided empty mask is treated like an
omitted one (construction succeeds, mask defaults to all-false of length
N); with the mask omitted, construction succeeds and the stored mask is
all-false of length N. -/
theorem C3_mask_validation (labels : List String) (m : List Bool) :
    (m ≠ [] → m.length ≠ labels.length →
      Bridge.init labels (some m) =
        Except.error "total_segments must be the same size as the series_labels.") ∧
    Bridge.init labels (some []) =
      Except.ok ⟨[], labels, labels.length, List.replicate labels.length false⟩ ∧
    Bridge.init labels none =
      Except.ok ⟨[], labels, labels.length, List.replicate labels.length false⟩ := by
  refine ⟨fun hne hlen => ?_, ?_, ?_⟩
  · have ht : listTruthy (some m) = true := by
      cases m with
      | nil => exact absurd rfl hne
      | cons a l => simp [listTruthy]
    simp [Bridge.init, ht, Option.getD, Ne.symm hlen]
  · simp [Bridge.init, listTruthy]
  · simp [Bridge.init, listTruthy]

/-- C3 witness: instantiation at labels `["A"]` and mask `[true,false]`. -/
theorem C3_mask_validation_witness :
    ([true, false] ≠ ([] : List Bool)) ∧
    List.length [true, false] ≠ List.length ["A"] ∧
    Bridge.init ["A"] (some [true, false]) =
      Except.error "total_segments must be the same size as the series_labels." :=
  ⟨by decide, by decide,
    (C3_mask_validation ["A"] [true, false]).1 (by decide) (by decide)⟩

/-- C4: `add_layer` fails exactly when the value count differs from the
segment count; on failure the state is returned unchanged (no layer
inserted, mask and labels untouched); on success no error is raised and
the state is mutated in place: the new layer is inserted at position 0
(`add_to_bottom=true`) or appended, everything else unchanged. -/
theorem C4_add_layer_validation (b : Bridge) (v : List Value) (atb : Bool)
    (args : BarArgs) :
    ((b.add_layer v atb args).1.isSome = true ↔ v.length ≠ b.segment_count) ∧
    ((b.add_layer v atb args).1.isSome = true → (b.add_layer v atb args).2 = b) ∧
    (v.length = b.segment_count →
      (b.add_layer v atb args).1 = none ∧
      (b.add_layer v atb args).2 =
        ⟨(if atb then Layer.mk v args :: b.layers else b.layers ++ [Layer.mk v args]),
          b.segment_labels, b.segment_count, b.total_segments⟩) := by
  by_cases h : b.segment_count = v.length
  · simp [Bridge.add_layer, h]
  · simp [Bridge.add_layer, h, Ne.symm h]

/-- C4 witness: a length-1 layer on a 3-segment chart fails and leaves the
state unchanged; a length-3 layer succeeds and prepends the layer. -/
theorem C4_add_layer_validation_witness :
    (([some 1] : List Value).length ≠ exB0.segment_count ∧
      (exB0.add_layer [some 1] true []).1.isSome = true ∧
      (exB0.add_layer [some 1] true []).2 = exB0) ∧
    (([some 1, some 2, some 3] : List Value).length = exB0.segment_count ∧
      (exB0.add_layer [some 1, some 2, some 3] true []).1 = none ∧
      (exB0.add_layer [some 1, some 2, some 3] true []).2 =
        ⟨[Layer.mk [some 1, some 2, some 3] []], ["A", "B", "C"], 3,
          [false, false, true]⟩) := by
  have h1 := (C4_add_layer_validation exB0 [some 1] true []).1
  have h2 := (C4_add_layer_validation exB0 [some 1] true []).2.1
  have h3 := (C4_add_layer_validation exB0 [some 1, some 2, some 3] true []).2.2
  refine ⟨⟨by decide, ?_, ?_⟩, ⟨by decide, ?_, ?_⟩⟩
  · exact h1.mpr (by decide)
  · exact h2 (h1.mpr (by decide))
  · exact (h3 (by decide)).1
  · exact ((h3 (by decide)).2).trans (by decide)

/-- C8: recomputation is idempotent and read-only: the `_plot` loop hands
back exactly the stored layers (it never modifies the values it reads),
and running it again on that unchanged layer list produces identical
(layer, bottom) pairs. -/
theorem C8_recompute_idempotent (mask : List Bool) (tops : List ℚ) (ls : List Layer) :
    (plotLoop mask tops ls).map Prod.fst = ls ∧
    plotLoop mask tops ((plotLoop mask tops ls).map Prod.fst) = plotLoop mask tops ls := by
  have h : ∀ tops ls, (plotLoop mask tops ls).map Prod.fst = ls := by
    intro tops ls
    induction ls generalizing tops with
    | nil => simp [plotLoop]
    | cons l rest ih => simp [plotLoop, ih]
  exact ⟨h tops ls, by rw [h]⟩

/-- C9: degenerate-input totality: for shape-correct inputs of any mask
(in particular all-true and all-false), `_calc_bottom` returns a vector of
length N, the empty vector when N = 0; and a chart with zero labels can be
constructed and accepts length-0 layers. -/
theorem C9_degenerate_totality (mask : List Bool) (vals : List Value) (tops : List ℚ)
    (N : ℕ) (h1 : mask.length = N) (h2 : vals.length = N) (h3 : tops.length = N) :
    (calc_bottom mask vals tops).length = N ∧
    (N = 0 → calc_bottom mask vals tops = []) ∧
    (Bridge.init [] none).isOk = true ∧
    (∀ b : Bridge, Bridge.init [] none = Except.ok b →
      (b.add_layer [] true []).1 = none) := by
  have hlen : (calc_bottom mask vals tops).length = N := by
    rw [length_calc_bottom, h1, h2, h3]
    omega
  refine ⟨hlen, fun h0 => ?_, by decide, fun b hb => ?_⟩
  · exact List.eq_nil_of_length_eq_zero (by rw [hlen, h0])
  · have : b = ⟨[], [], 0, []⟩ := by
      have := hb.symm.trans (by norm_num [Bridge.init, listTruthy] : Bridge.init [] none = Except.ok ⟨[], [], 0, []⟩)
      exact (Except.ok.injEq _ _).mp this
    subst this
    decide

/-- C9 witness: concrete instantiations with an all-true mask (N = 2), an
all-false mask (N = 2), and N = 0. -/
theorem C9_degenerate_totality_witness :
    (calc_bottom [true, true] [some 1, none] [3, 4]).length = 2 ∧
    (calc_bottom [false, false] [some 1, none] [3, 4]).length = 2 ∧
    calc_bottom [] [] [] = [] := by
  refine ⟨(C9_degenerate_totality [true, true] [some 1, none] [3, 4] 2
      (by decide) (by decide) (by decide)).1,
    (C9_degenerate_totality [false, false] [some 1, none] [3, 4] 2
      (by decide) (by decide) (by decide)).1,
    (C9_degenerate_totality [] [] [] 0 (by decide) (by decide) (by decide)).2.1 rfl⟩

/-- C2: total reset property. For every chart (well-shaped mask and
layers), every layer index j and category index i with `total_mask[i]`
true, the computed bottom of layer j at i equals the cumulative top at i
accumulated from the strictly-earlier layers: the sum of the NaN-cleaned
values at position i over the layers below. (In particular it depends on
no value of the current layer and on no value at any other position.) -/
theorem C2_total_reset (b : Bridge) (j i : ℕ)
    (hmask : b.total_segments.length = b.segment_count)
    (hvals : ∀ l ∈ b.layers, l.values.length = b.segment_count)
    (hj : j < b.layers.length) (hi : i < b.segment_count)
    (htot : b.total_segments.getD i false = true) :
    (b.plotBottoms.getD j []).getD i 0 =
      ((b.layers.take j).map (fun l => nanToNum (l.values.getD i none))).sum := by
  obtain ⟨ls, labels, n, mask⟩ := b
  simp only at hmask hvals hj hi htot ⊢
  unfold Bridge.plotBottoms Bridge.plotBars
  simp only
  rw [plotBottoms_getD _ _ _ j hj]
  have htake : ∀ l ∈ ls.take j, l.values.length = (List.replicate n (0 : ℚ)).length := by
    intro l hm
    rw [List.length_replicate]
    exact hvals l (List.take_subset j ls hm)
  have hmem : (ls.getD j (Layer.mk [] [])) ∈ ls := by
    rw [getD_lt _ _ _ hj]
    exact List.get_mem ls j hj
  have hT : (List.foldl stepTops (List.replicate n (0 : ℚ)) (ls.take j)).length = n := by
    rw [length_foldl_stepTops _ _ htake, List.length_replicate]
  rw [calc_bottom_getD_total _ _ _ i (by omega) (by rw [hvals _ hmem]; omega)
      (by omega) htot]
  rw [foldl_stepTops_getD _ _ _ (by rw [List.length_replicate]; omega) htake]
  have hrep : (List.replicate n (0 : ℚ)).getD i 0 = 0 := by
    rw [getD_lt _ _ _ (by rw [List.length_replicate]; omega)]
    simp
  rw [hrep, zero_add]

/-- C2 witness: in the end-to-end example chart, the top layer's bottom at
the total category (index 2) is the cumulative top 5 contributed by the
single layer below. -/
theorem C2_total_reset_witness :
    exB2.total_segments.getD 2 false = true ∧
    (exB2.plotBottoms.getD 1 []).getD 2 0 =
      ((exB2.layers.take 1).map (fun l => nanToNum (l.values.getD 2 none))).sum ∧
    ((exB2.layers.take 1).map (fun l => nanToNum (l.values.getD 2 none))).sum = 5 :=
  ⟨by decide,
    C2_total_reset exB2 1 2 (by decide) (by decide) (by decide) (by decide) (by decide),
    by norm_num [exB2, exB1, exB0, Bridge.add_layer, nanToNum]⟩

/-- C10: implicit invariant at index 0. For every chart with at least one
category, every layer's computed bottom at index 0 equals the sum of the
cleaned values at index 0 over the strictly-earlier layers — whatever the
value of `total_mask[0]` — so the bottom-most layer has bottom 0 there. -/
theorem C10_index_zero (b : Bridge) (j : ℕ)
    (hmask : b.total_segments.length = b.segment_count)
    (hvals : ∀ l ∈ b.layers, l.values.length = b.segment_count)
    (hj : j < b.layers.length) (hn : 0 < b.segment_count) :
    (b.plotBottoms.getD j []).getD 0 0 =
      ((b.layers.take j).map (fun l => nanToNum (l.values.getD 0 none))).sum := by
  obtain ⟨ls, labels, n, mask⟩ := b
  simp only at hmask hvals hj hn ⊢
  unfold Bridge.plotBottoms Bridge.plotBars
  simp only
  rw [plotBottoms_getD _ _ _ j hj]
  have htake : ∀ l ∈ ls.take j, l.values.length = (List.replicate n (0 : ℚ)).length := by
    intro l hm
    rw [List.length_replicate]
    exact hvals l (List.take_subset j ls hm)
  have hmem : (ls.getD j (Layer.mk [] [])) ∈ ls := by
    rw [getD_lt _ _ _ hj]
    exact List.get_mem ls j hj
  have hT : (List.foldl stepTops (List.replicate n (0 : ℚ)) (ls.take j)).length = n := by
    rw [length_foldl_stepTops _ _ htake, List.length_replicate]
  rw [calc_bottom_getD_zero _ _ _ (by omega) (by rw [hvals _ hmem]; omega) (by omega)]
  rw [foldl_stepTops_getD _ _ _ (by rw [List.length_replicate]; omega) htake]
  have hrep : (List.replicate n (0 : ℚ)).getD 0 0 = 0 := by
    rw [getD_lt _ _ _ (by rw [List.length_replicate]; omega)]
    simp
  rw [hrep, zero_add]

/-- C10 witness: in the end-to-end example (where `total_mask[0]` is
false), the top layer's bottom at index 0 is the sum 5 of the cleaned
values below; a one-layer chart has bottom 0 at index 0 of its bottom
layer. -/
theorem C10_index_zero_witness :
    ((exB2.plotBottoms.getD 1 []).getD 0 0 =
      ((exB2.layers.take 1).map (fun l => nanToNum (l.values.getD 0 none))).sum ∧
      ((exB2.layers.take 1).map (fun l => nanToNum (l.values.getD 0 none))).sum = 5) ∧
    ((exC7.plotBottoms.getD 0 []).getD 0 0 =
      ((exC7.layers.take 0).map (fun l => nanToNum (l.values.getD 0 none))).sum ∧
      ((exC7.layers.take 0).map (fun l => nanToNum (l.values.getD 0 none))).sum = 0) :=
  ⟨⟨C10_index_zero exB2 1 (by decide) (by decide) (by decide) (by decide),
      by norm_num [exB2, exB1, exB0, Bridge.add_layer, nanToNum]⟩,
    ⟨C10_index_zero exC7 0 (by decide) (by decide) (by decide) (by decide),
      by norm_num⟩⟩

/-- C5: zero-layer and first-layer rule. A freshly constructed chart
exposes an empty layer list; and adding a first layer with NaN-free values
`v` under the default (all-false) mask gives bottoms equal to the prefix
sums of the right-shifted values: `bottom[i] = v[0] + ... + v[i-1]`. -/
theorem C5_first_layer (labels : List String) (v : List ℚ)
    (hlen : v.length = labels.length) :
    (Bridge.init labels none).map Bridge.layers = Except.ok [] ∧
    (∀ b : Bridge, Bridge.init labels none = Except.ok b →
      ∀ i, i < v.length →
        (((b.add_layer (v.map some) true []).2.plotBottoms).getD 0 []).getD i 0 =
          (v.take i).sum) := by
  have hinit : Bridge.init labels none =
      Except.ok ⟨[], labels, labels.length, List.replicate labels.length false⟩ := by
    simp [Bridge.init, listTruthy]
  constructor
  · rw [hinit]
    rfl
  · intro b hb i hi
    have hbeq : b = ⟨[], labels, labels.length, List.replicate labels.length false⟩ :=
      (Except.ok.injEq _ _).mp (hb.symm.trans hinit)
    subst hbeq
    have hadd : (Bridge.add_layer ⟨[], labels, labels.length,
        List.replicate labels.length false⟩ (v.map some) true []).2 =
        ⟨[Layer.mk (v.map some) []], labels, labels.length,
          List.replicate labels.length false⟩ := by
      simp [Bridge.add_layer, hlen]
    rw [hadd]
    simp only [Bridge.plotBottoms, Bridge.plotBars, plotLoop, List.map_cons,
      List.map_nil, List.getD_cons_zero]
    rw [calc_bottom_allfalse_getD labels.length (v.map some)
        (List.replicate labels.length 0) i (by simpa using hlen) (by simp)
        (by omega)]
    rw [nanClean_map_some,
      zipWith_add_replicate_zero (shiftRight v) labels.length
        (by rw [length_shiftRight, hlen]),
      shiftRight_take_sum v i hi]

/-- C5 witness: `v = [10, 20, 30]` on a fresh three-label chart has
first-layer bottoms whose entry at index 2 is `10 + 20 = 30`. -/
theorem C5_first_layer_witness :
    (([10, 20, 30] : List ℚ).length = (["A", "B", "C"] : List String).length) ∧
    (Bridge.init ["A", "B", "C"] none).map Bridge.layers = Except.ok [] ∧
    ((((Bridge.mk [] ["A", "B", "C"] 3 [false, false, false]).add_layer
        (([10, 20, 30] : List ℚ).map some) true []).2.plotBottoms).getD 0 []).getD 2 0 =
      (([10, 20, 30] : List ℚ).take 2).sum ∧
    (([10, 20, 30] : List ℚ).take 2).sum = 30 :=
  ⟨by decide,
    (C5_first_layer ["A", "B", "C"] [10, 20, 30] (by decide)).1,
    (C5_first_layer ["A", "B", "C"] [10, 20, 30] (by decide)).2
      (Bridge.mk [] ["A", "B", "C"] 3 [false, false, false])
      (by simp [Bridge.init, listTruthy, List.replicate]) 2 (by decide),
    by norm_num⟩

/-- C6: gap tolerance. A NaN (missing) entry at position k contributes 0
to the cumulative tops at k (the top there is unchanged by the layer) and
0 to the right-shifted carry at position k+1, while the raw stored value
at k stays the NaN sentinel: the stored layer keeps exactly the values
passed in, uncoerced. -/
theorem C6_gap_tolerance (b : Bridge) (v : List Value) (atb : Bool) (args : BarArgs)
    (tops : List ℚ) (k : ℕ) (hk : k < v.length) (hnan : v.getD k none = none)
    (hlen : tops.length = v.length) :
    (updateTops tops v).getD k 0 = tops.getD k 0 ∧
    (k + 1 < v.length → (shiftRight (nanClean v)).getD (k + 1) 0 = 0) ∧
    (v.length = b.segment_count →
      Layer.mk v args ∈ (b.add_layer v atb args).2.layers) := by
  refine ⟨?_, fun hk1 => ?_, fun hvb => ?_⟩
  · unfold updateTops
    rw [zipWith_add_getD _ _ _ (by omega) (by rw [length_nanClean]; omega),
      nanClean_getD _ _ hk, hnan]
    simp [nanToNum]
  · rw [shiftRight_getD_succ _ _ (by rw [length_nanClean]; exact hk1),
      nanClean_getD _ _ hk, hnan]
    simp [nanToNum]
  · have hcond : ¬(b.segment_count ≠ v.length) := fun h => h hvb.symm
    simp only [Bridge.add_layer, if_neg hcond]
    cases atb <;> simp

/-- C6 witness: a NaN at position 1 of `[2, NaN, 3]` leaves the top at
position 1 unchanged, carries 0 into position 2, and is stored uncoerced. -/
theorem C6_gap_tolerance_witness :
    (updateTops [1, 1, 1] [some 2, none, some 3]).getD 1 0 =
      ([1, 1, 1] : List ℚ).getD 1 0 ∧
    (shiftRight (nanClean [some 2, none, some 3])).getD 2 0 = 0 ∧
    Layer.mk [some 2, none, some 3] [] ∈
      (exB0.add_layer [some 2, none, some 3] true []).2.layers :=
  ⟨(C6_gap_tolerance exB0 [some 2, none, some 3] true [] [1, 1, 1] 1
      (by decide) (by decide) (by decide)).1,
    (C6_gap_tolerance exB0 [some 2, none, some 3] true [] [1, 1, 1] 1
      (by decide) (by decide) (by decide)).2.1 (by decide),
    (C6_gap_tolerance exB0 [some 2, none, some 3] true [] [1, 1, 1] 1
      (by decide) (by decide) (by decide)).2.2 (by decide)⟩

/-- C7 counterexample: on a one-layer chart (`[5]`, labels `["A"]`,
default mask), a second layer `[0]` added with `add_to_bottom=true` is
placed at position 0, yet the previously-added layer's recomputed bottoms
are `[0]` — exactly what they were before — refuting the claim that the
previous layer's bottoms always change. -/
theorem C7_counterexample :
    (exC7.add_layer [some 0] true []).2.layers =
      [Layer.mk [some 0] [], Layer.mk [some 5] []] ∧
    exC7.plotBottoms = [[0]] ∧
    (exC7.add_layer [some 0] true []).2.plotBottoms.getD 1 [] = [0] := by
  refine ⟨?_, ?_, ?_⟩ <;>
    norm_num [exC7, Bridge.add_layer, Bridge.plotBottoms, Bridge.plotBars, plotLoop,
      calc_bottom, updateTops, nanClean, nanToNum, shiftRight, zip3, calcLoop,
      List.replicate]

/-- C7 (amended): on a one-layer chart, a second layer added with
`add_to_bottom=true` is placed at list position 0; recomputation covers
the whole list, and the previously-added layer's bottoms are recomputed
with the new layer's cleaned values as starting tops — so under an
all-false mask they shift upward by the new layer's cumulative
(prefix-sum) contribution, which may be zero — while its raw stored
values remain unchanged. -/
theorem C7_bottom_insertion (b : Bridge) (l0 : Layer) (v : List Value) (args : BarArgs)
    (hb : b.layers = [l0]) (hlen : v.length = b.segment_count)
    (hl0 : l0.values.length = b.segment_count) :
    (b.add_layer v true args).2.layers = [Layer.mk v args, l0] ∧
    ((b.add_layer v true args).2.layers.getD 1 (Layer.mk [] [])).values = l0.values ∧
    (b.add_layer v true args).2.plotBottoms =
      [calc_bottom b.total_segments v (List.replicate b.segment_count 0),
        calc_bottom b.total_segments l0.values (nanClean v)] ∧
    (b.total_segments = List.replicate b.segment_count false →
      ∀ i, i < b.segment_count →
        ((b.add_layer v true args).2.plotBottoms.getD 1 []).getD i 0 =
          (b.plotBottoms.getD 0 []).getD i 0 + ((nanClean v).take (i + 1)).sum) := by
  obtain ⟨ls, labels, n, mask⟩ := b
  simp only at hb hlen hl0 ⊢
  subst hb
  have hcond : ¬(n ≠ v.length) := fun h => h hlen.symm
  have hadd : (Bridge.add_layer ⟨[l0], labels, n, mask⟩ v true args).2 =
      ⟨[Layer.mk v args, l0], labels, n, mask⟩ := by
    simp [Bridge.add_layer, hcond]
  have hupd : updateTops (List.replicate n 0) v = nanClean v := by
    unfold updateTops
    exact zipWith_add_replicate_zero (nanClean v) n (by rw [length_nanClean, hlen])
  have hplot : (Bridge.add_layer ⟨[l0], labels, n, mask⟩ v true args).2.plotBottoms =
      [calc_bottom mask v (List.replicate n 0),
        calc_bottom mask l0.values (nanClean v)] := by
    rw [hadd]
    simp only [Bridge.plotBottoms, Bridge.plotBars, plotLoop, List.map_cons,
      List.map_nil, hupd]
  refine ⟨by rw [hadd], by rw [hadd]; rfl, hplot, fun hmaskeq i hi => ?_⟩
  subst hmaskeq
  rw [hplot]
  simp only [List.getD_cons_succ, List.getD_cons_zero, Bridge.plotBottoms,
    Bridge.plotBars, plotLoop, List.map_cons, List.map_nil]
  rw [calc_bottom_allfalse_getD n l0.values (nanClean v) i hl0
      (by rw [length_nanClean, hlen]) hi,
    calc_bottom_allfalse_getD n l0.values (List.replicate n 0) i hl0 (by simp) hi,
    take_zipWith_add_sum (nanClean v) (shiftRight (nanClean l0.values)) (i + 1)
      (by rw [length_nanClean, length_shiftRight, length_nanClean, hlen, hl0]),
    zipWith_add_replicate_zero (shiftRight (nanClean l0.values)) n
      (by rw [length_shiftRight, length_nanClean, hl0])]
  ring

/-- C7 witness: adding `[2]` to the bottom of the one-layer chart `[5]`
places it first; the old layer's bottom at index 0 rises from 0 to
`0 + 2`. -/
theorem C7_bottom_insertion_witness :
    (exC7.add_layer [some 2] true []).2.layers =
      [Layer.mk [some 2] [], Layer.mk [some 5] []] ∧
    ((exC7.add_layer [some 2] true []).2.plotBottoms.getD 1 []).getD 0 0 =
      (exC7.plotBottoms.getD 0 []).getD 0 0 + ((nanClean [some 2]).take 1).sum ∧
    ((nanClean [some 2]).take 1).sum = 2 :=
  ⟨(C7_bottom_insertion exC7 (Layer.mk [some 5] []) [some 2] [] rfl
      (by decide) (by decide)).1,
    (C7_bottom_insertion exC7 (Layer.mk [some 5] []) [some 2] [] rfl
      (by decide) (by decide)).2.2.2 (by decide) 0 (by decide),
    by norm_num [nanClean, nanToNum]⟩

end Ponte
